import Mathlib

/-!
Verification of the accent-point voice-conversion API's audio-processing
pipeline (a shallow embedding of `app/services/audio_processor.py`,
`app/services/voice_converter.py`, `app/services/batch_processor.py`,
`app/services/native_reference_generator.py` and
`app/api/voice_conversion.py`).

Audio buffers (numpy float arrays) are modelled as `List ℚ`: each float
sample is carried as an exact rational.  Python's `int(...)` truncation of a
non-negative float is modelled by `intTrunc`; durations are rationals
`length / sample_rate`.  Library internals whose numerics are outside the
embedding (librosa's silence detector and resampler, the spectral VAD
computation, pyloudnorm's loudness meter) appear as explicit function or
outcome parameters, so every theorem quantifies over their possible
behaviours; the repository's own control flow around them is embedded
faithfully.
-/

namespace AccentPoint

/-- Python `int(q)` for the non-negative rationals that arise here
(truncation towards zero). -/
def intTrunc (q : ℚ) : ℕ := (Int.floor q).toNat

/-- Duration in seconds of a buffer: `len(audio_data) / sample_rate`. -/
def dur (xs : List ℚ) (sr : ℕ) : ℚ := (xs.length : ℚ) / (sr : ℚ)

/-- `np.linspace(a, b, n)`: `n` evenly spaced values from `a` to `b`
inclusive; `linspace a b 1 = [a]`, `linspace a b 0 = []`. -/
def linspace (a b : ℚ) (n : ℕ) : List ℚ :=
  if n ≤ 1 then List.replicate n a
  else (List.range n).map (fun (i : ℕ) => a + (b - a) * (i : ℚ) / ((n : ℚ) - 1))

/-- Result of calling a numpy-mutating stage: `callerBuf` is the contents of
the array the caller passed in after the call returned (numpy in-place
operations such as `*=` on a slice change it), `ret` is the returned array. -/
structure NpCallRes where
  callerBuf : List ℚ
  ret : List ℚ
  deriving DecidableEq, Repr

/-- numpy `audio_data[:n] *= curve` where `curve` has length `n`: the slice
`audio_data[:n]` holds `min n len` elements, so the in-place broadcast fails
(ValueError) exactly when `len < n`, except in the degenerate broadcastable
case of an empty slice against a length-1 curve.  `none` models the raised
ValueError. -/
def inplaceMulPrefix (xs curve : List ℚ) : Option (List ℚ) :=
  if xs.length < curve.length ∧ ¬(xs.length = 0 ∧ curve.length = 1) then none
  else some (List.zipWith (· * ·) (xs.take curve.length) curve ++ xs.drop curve.length)

/-- numpy `audio_data[-n:] *= curve` (`n ≥ 1`): the slice holds the last
`min n len` elements; same failure condition as `inplaceMulPrefix`. -/
def inplaceMulSuffix (xs curve : List ℚ) : Option (List ℚ) :=
  if xs.length < curve.length ∧ ¬(xs.length = 0 ∧ curve.length = 1) then none
  else some (xs.take (xs.length - curve.length) ++
    List.zipWith (· * ·) (xs.drop (xs.length - curve.length)) curve)

/-- The data flow of `AudioProcessor.apply_fade` (audio_processor.py 277-311):
`fade_in_samples = int(fade_in * sample_rate)`, multiply the first
`fade_in_samples` samples in place by `np.linspace(0, 1, fade_in_samples)`
when positive, then the last `fade_out_samples` by `np.linspace(1, 0,
fade_out_samples)`; `none` when either in-place broadcast raises. -/
def applyFadeOpt (xs : List ℚ) (sampleRate : ℕ) (fadeIn fadeOut : ℚ) : Option (List ℚ) :=
  let fadeInSamples := intTrunc (fadeIn * sampleRate)
  let fadeOutSamples := intTrunc (fadeOut * sampleRate)
  (if 0 < fadeInSamples then inplaceMulPrefix xs (linspace 0 1 fadeInSamples)
   else some xs).bind fun xs1 =>
    if 0 < fadeOutSamples then inplaceMulSuffix xs1 (linspace 1 0 fadeOutSamples)
    else some xs1

/-- `AudioProcessor.apply_fade`: on success it returns the very array it was
handed, whose samples it scaled in place (so `callerBuf = ret`); a numpy
error inside is caught and re-raised as `AudioProcessingError`. -/
def apply_fade (xs : List ℚ) (sampleRate : ℕ) (fadeIn fadeOut : ℚ) :
    Except String NpCallRes :=
  match applyFadeOpt xs sampleRate fadeIn fadeOut with
  | some ys => .ok ⟨ys, ys⟩
  | none => .error "Failed to apply fade"

/-- `AudioProcessor.pad_audio_to_minimum` (audio_processor.py 378-410):
return the buffer unchanged when already at least `min_duration` seconds,
else append `int(padding_duration * sample_rate)` zero samples
(`np.concatenate` allocates a fresh array, the caller's is untouched). -/
def pad_audio_to_minimum (xs : List ℚ) (sampleRate : ℕ) (minDuration : ℚ) : List ℚ :=
  let currentDuration := dur xs sampleRate
  if minDuration ≤ currentDuration then xs
  else xs ++ List.replicate (intTrunc ((minDuration - currentDuration) * sampleRate)) 0

/-- `pad_audio_to_minimum` as a stage call: `np.concatenate` returns a new
array (and the early-return path hands back the caller's array unmodified),
so the caller's buffer contents are unchanged either way. -/
def padAudioCall (xs : List ℚ) (sampleRate : ℕ) (minDuration : ℚ) : NpCallRes :=
  ⟨xs, pad_audio_to_minimum xs sampleRate minDuration⟩

/-- The conditional-trim stage of `AudioProcessor.optimize_for_openvoice`
(audio_processor.py 427-450).  `trimCore xs sr top_db` stands for
`librosa.effects.trim(audio_data, top_db=top_db)[0]`, whose signal analysis
is outside the embedding; the stage's escalating-retry control flow around
it is the code's own.  Inputs of at most 8 s skip trimming; longer inputs
are trimmed at `top_db=30`, re-trimmed from the original at `top_db=40`
when the result is shorter than 4 s, and replaced by the untrimmed
original when the kept result is still shorter than 3 s. -/
def optimizeTrimStage (trimCore : List ℚ → ℕ → ℚ → List ℚ)
    (xs : List ℚ) (sampleRate : ℕ) : List ℚ :=
  let originalDuration := dur xs sampleRate
  if 8 < originalDuration then
    let trimmed30 := trimCore xs sampleRate 30
    let kept := if dur trimmed30 sampleRate < 4 then trimCore xs sampleRate 40 else trimmed30
    if dur kept sampleRate < 3 then xs else kept
  else xs

/-- `AudioProcessor.optimize_for_openvoice` (audio_processor.py 412-464):
the trim stage, then `apply_fade(..., fade_in=0.05, fade_out=0.05)`, then
`pad_audio_to_minimum(..., min_duration=6.0)`; an `AudioProcessingError`
raised by a stage propagates (re-wrapped) as an error. -/
def optimize_for_openvoice (trimCore : List ℚ → ℕ → ℚ → List ℚ)
    (xs : List ℚ) (sampleRate : ℕ) : Except String (List ℚ) :=
  (apply_fade (optimizeTrimStage trimCore xs sampleRate) sampleRate (1/20) (1/20)).map
    fun faded => pad_audio_to_minimum faded.ret sampleRate 6

/-- `np.tile(xs, k)` for a one-dimensional array: `k` concatenated copies. -/
def npTile (xs : List ℚ) : ℕ → List ℚ
  | 0 => []
  | n + 1 => xs ++ npTile xs n

/-- The duration repair of `NativeReferenceGenerator.generate_native_reference`
(native_reference_generator.py 71-90): when the generated reference is
shorter than the 7.0 s voice-content floor, compute
`repeats_needed = int(7.0 / current_duration) + 1`, tile the buffer that
many times and slice to exactly `int(7.0 * sample_rate)` samples; otherwise
return the buffer unchanged. -/
def generate_native_reference_repair (xs : List ℚ) (sampleRate : ℕ) : List ℚ :=
  let currentDuration := dur xs sampleRate
  if currentDuration < 7 then
    let repeatsNeeded := intTrunc (7 / currentDuration) + 1
    (npTile xs repeatsNeeded).take (intTrunc ((7:ℚ) * sampleRate))
  else xs

/-- The reference-side preparation of the `convert_voice` endpoint
(voice_conversion.py 125 and 134-141): the reference buffer runs through
`optimize_for_openvoice` (which pads to a 6.0 s minimum with silence) and is
then silence-padded again to a 2.0 s floor if still shorter. -/
def api_prepare_reference (trimCore : List ℚ → ℕ → ℚ → List ℚ)
    (xs : List ℚ) (sampleRate : ℕ) : Except String (List ℚ) :=
  (optimize_for_openvoice trimCore xs sampleRate).map fun optimized =>
    if dur optimized sampleRate < 2 then pad_audio_to_minimum optimized sampleRate 2
    else optimized

/-- `np.max(np.abs(normalized))`: the largest absolute sample (0 for the
empty buffer). -/
def peakAbs (xs : List ℚ) : ℚ := (xs.map fun x => |x|).foldr max 0

/-- `librosa.util.normalize(audio_data)` (default infinity norm): divide by
the peak absolute sample; the float tiny-threshold guard, which leaves
near-silent buffers untouched, is modelled as the zero-peak case. -/
def librosa_util_normalize (xs : List ℚ) : List ℚ :=
  let peak := peakAbs xs
  if 0 < peak then xs.map (fun x => x / peak) else xs

/-- The peak-limiting block of `AudioProcessor.normalize_loudness`
(audio_processor.py 148-152): if the peak exceeds `peak_limit_linear`,
scale the whole buffer by `peak_limit_linear / peak`. -/
def applyPeakLimit (normalized : List ℚ) (peakLimitLinear : ℚ) : List ℚ :=
  let peak := peakAbs normalized
  if peakLimitLinear < peak then normalized.map (fun x => x * (peakLimitLinear / peak))
  else normalized

/-- The ways the body of `AudioProcessor.normalize_loudness` can go, which
depend on library state and on pyloudnorm's numerics:
`measured gainLinear` is the normal path (`gainLinear` carries the float
`10 ** ((target_lufs - loudness) / 20.0)`), `nanLoudness` the
`np.isnan(loudness)` fallback inside the `try`, `importErr` the missing
pyloudnorm handler, and `exceptionRaised` the generic exception handler. -/
inductive LoudnessOutcome where
  | measured (gainLinear : ℚ)
  | nanLoudness
  | importErr
  | exceptionRaised

/-- `AudioProcessor.normalize_loudness` (audio_processor.py 109-163), given
the outcome of the pyloudnorm measurement.  On the two paths inside the
`try` block the gain (or peak-normalization fallback) is followed by the
hard peak ceiling; the `except ImportError` and `except Exception` handlers
return `librosa.util.normalize(audio_data)` directly, with no ceiling. -/
def normalize_loudness (outcome : LoudnessOutcome) (xs : List ℚ)
    (peakLimitLinear : ℚ) : List ℚ :=
  match outcome with
  | .measured gainLinear => applyPeakLimit (xs.map fun x => x * gainLinear) peakLimitLinear
  | .nanLoudness => applyPeakLimit (librosa_util_normalize xs) peakLimitLinear
  | .importErr => librosa_util_normalize xs
  | .exceptionRaised => librosa_util_normalize xs

/-- numpy dtypes as the formatter distinguishes them: `float32` is the
canonical type, everything else (float64 from means, integer types) is
`other`. -/
inductive NpDtype where
  | float32
  | other
  deriving DecidableEq

/-- A numpy audio array as `ensure_consistent_format` sees it: 1-D mono or
2-D multi-channel, with its dtype. -/
inductive NpAudio where
  | mono (data : List ℚ) (dtype : NpDtype)
  | multi (frames : List (List ℚ)) (dtype : NpDtype)
  deriving DecidableEq

/-- The data after the stereo-to-mono step: `np.mean(audio_data, axis=1)`
for a 2-D array, the data unchanged for 1-D. -/
def toMonoData : NpAudio → List ℚ
  | .mono d _ => d
  | .multi frames _ => frames.map (fun r => r.sum / (r.length : ℚ))

/-- The dtype after the stereo-to-mono step (`np.mean` keeps float32 and
keeps any non-float32 float in a non-float32 dtype). -/
def audioDtype : NpAudio → NpDtype
  | .mono _ dt => dt
  | .multi _ dt => dt

/-- `AudioProcessor.resample_audio` (audio_processor.py 165-187): identity
when the rates already match, otherwise `librosa.resample`, abstracted as
`resampleCore` (dtype-preserving on float input). -/
def resample_audio (resampleCore : List ℚ → ℕ → ℕ → List ℚ) (xs : List ℚ)
    (origSr targetSr : ℕ) : List ℚ :=
  if origSr = targetSr then xs else resampleCore xs origSr targetSr

/-- `AudioProcessor.ensure_consistent_format` (audio_processor.py 189-225):
average stereo to mono, resample when the rate differs from the target,
cast to float32 when the dtype is anything else (`astype` affects only the
dtype here: samples are carried exactly), and return the array with the
target rate. -/
def ensure_consistent_format (resampleCore : List ℚ → ℕ → ℕ → List ℚ)
    (a : NpAudio) (sampleRate targetSr : ℕ) : NpAudio × ℕ :=
  let data := toMonoData a
  let dt := audioDtype a
  let data2 := if sampleRate ≠ targetSr then resample_audio resampleCore data sampleRate targetSr
    else data
  let dt2 := if dt ≠ .float32 then .float32 else dt
  (.mono data2 dt2, targetSr)

/-- Total voice duration of a segment list:
`sum(end - start for start, end in voice_segments)`. -/
def voice_duration_of (segs : List (ℚ × ℚ)) : ℚ := (segs.map fun s => s.2 - s.1).sum

/-- `VoiceConverter._analyze_voice_content` (voice_converter.py 129-184):
the spectral VAD computation (librosa feature extraction and frame
grouping) is abstracted as `comp`; the `except` handler turns any raised
error into the single segment covering the whole buffer,
`[(0.0, len(audio_data) / sample_rate)]`. -/
def analyze_voice_content_vc (comp : Except String (List (ℚ × ℚ)))
    (xs : List ℚ) (sampleRate : ℕ) : List (ℚ × ℚ) :=
  match comp with
  | .ok segs => segs
  | .error _ => [(0, dur xs sampleRate)]

/-- Char-list prefix test (used to decide substring occurrence). -/
def listIsPre : List Char → List Char → Bool
  | [], _ => true
  | _ :: _, [] => false
  | a :: t, b :: s => (a == b) && listIsPre t s

/-- Whether `t` occurs as a contiguous sublist of the second argument. -/
def subOccurs (t : List Char) : List Char → Bool
  | [] => listIsPre t []
  | b :: rest => listIsPre t (b :: rest) || subOccurs t rest

/-- Python's `pat in s` on strings: contiguous-substring occurrence. -/
def strContains (s pat : String) : Bool := subOccurs pat.data s.data

/-- Round a non-negative rational to the nearest integer, ties to even
(CPython's fixed-point float formatting; exact on the values used here). -/
def roundHalfEven (x : ℚ) : ℕ :=
  let f := (Int.floor x).toNat
  let r := x - Int.floor x
  if r < 1/2 then f
  else if 1/2 < r then f + 1
  else if f % 2 = 0 then f else f + 1

/-- Python `f"{q:.2f}"`: fixed-point with two decimals. -/
def fmt2 (q : ℚ) : String :=
  let n := roundHalfEven (|q| * 100)
  (if q < 0 then "-" else "") ++ toString (n / 100) ++ "." ++
    (if n % 100 < 10 then "0" ++ toString (n % 100) else toString (n % 100))

/-- Python `f"{q:.1f}"`: fixed-point with one decimal. -/
def fmt1 (q : ℚ) : String :=
  let n := roundHalfEven (|q| * 10)
  (if q < 0 then "-" else "") ++ toString (n / 10) ++ "." ++ toString (n % 10)

/-- Python `str(min_duration)` for `min_duration = 1.0`. -/
def minDurationStr : String := "1.0"

/-- The input-too-short message of `_validate_audio_length`
(voice_converter.py 67-72), chunked as the f-string is. -/
def inputShortMsg (inputDuration : ℚ) : String :=
  "Input audio too short: " ++ fmt2 inputDuration ++ "s. Minimum required: " ++
    minDurationStr ++ "s. Please record for at least " ++ minDurationStr ++
    " seconds of continuous speech."

/-- The insufficient-voice-content message (voice_converter.py 74-80). -/
def insufficientVoiceMsg (voiceDuration inputDuration : ℚ) : String :=
  "Insufficient voice content: " ++ fmt2 voiceDuration ++ "s detected out of " ++
    fmt2 inputDuration ++ "s total. Voice content percentage: " ++
    fmt1 (voiceDuration / inputDuration * 100) ++
    "%. Please speak clearly for at least 1 second. Try speaking louder or closer to the microphone."

/-- The reference-too-short message (voice_converter.py 83-88). -/
def refShortMsg (referenceDuration : ℚ) : String :=
  "Reference audio too short: " ++ fmt2 referenceDuration ++
    "s. Minimum required: 0.5s. Please use a reference audio that is at least 0.5 seconds long."

/-- A `ConversionError` raised inside the `try` of `_validate_audio_length`
is caught by its own generic `except Exception` handler and re-raised as
`ConversionError(f"Audio validation failed: {str(e)}")`. -/
def validationWrap (m : String) : String := "Audio validation failed: " ++ m

/-- `VoiceConverter._validate_audio_length` (voice_converter.py 40-127) along
the librosa path, given the measured durations and the analyzer's segments:
the logging line divides by `input_duration` before any check
(ZeroDivisionError for a zero duration, also re-wrapped), then the three
checks run in order: input duration < 1.0 s, summed voice content < 0.5 s,
reference duration < 0.5 s. -/
def validate_audio_length (inputDuration referenceDuration : ℚ)
    (voiceSegments : List (ℚ × ℚ)) : Except String Unit :=
  if inputDuration = 0 then .error (validationWrap "float division by zero")
  else
    let voiceDuration := voice_duration_of voiceSegments
    if inputDuration < 1 then .error (validationWrap (inputShortMsg inputDuration))
    else if voiceDuration < 1/2 then
      .error (validationWrap (insufficientVoiceMsg voiceDuration inputDuration))
    else if referenceDuration < 1/2 then
      .error (validationWrap (refShortMsg referenceDuration))
    else .ok ()

/-- How the `convert_voice` engine call can end: success (the engine
verified its output file exists), a `ConversionError` from
`_validate_audio_length`, or any other engine exception. -/
inductive ConvOutcome where
  | success
  | validationFailure (msg : String)
  | engineException (msg : String)
  deriving DecidableEq

/-- `VoiceConverter.convert_voice` wraps every exception:
`ConversionError(f"Voice conversion failed: {str(e)}")`
(voice_converter.py 234-236). -/
def convWrap (m : String) : String := "Voice conversion failed: " ++ m

/-- The per-job environment of a batch conversion: whether loading the
upload, saving the temp input and saving the temp reference succeed, and
how the engine call ends. -/
structure ConvJobEnv where
  loadOk : Bool
  saveInputOk : Bool
  saveRefOk : Bool
  convert : ConvOutcome
  deriving DecidableEq

/-- The result dict of `BatchProcessor._process_single_conversion`. -/
structure BatchEntry where
  file_index : ℕ
  filename : String
  status : String
  error : Option String
  output_file : Option String
  deriving DecidableEq, Repr

/-- `BatchProcessor._process_single_conversion` (batch_processor.py 96-163).
The second component lists the transient temp files still on disk when the
job returns: each `NamedTemporaryFile(delete=False)` puts a file on disk,
and `os.unlink(temp_input_path); os.unlink(temp_ref_path)` (141-142) runs
only after `convert_voice` returned — the `except` handler (156-163) builds
the failed entry without deleting anything. -/
def process_single_conversion (batchId : String) (fileIndex : ℕ) (filename : String)
    (env : ConvJobEnv) : BatchEntry × List String :=
  if env.loadOk = false then
    (⟨fileIndex, filename, "failed", some "Failed to load audio", none⟩, [])
  else
    let tempInput := "temp_input_" ++ toString fileIndex
    if env.saveInputOk = false then
      (⟨fileIndex, filename, "failed", some "Failed to save audio", none⟩, [tempInput])
    else
      let tempRef := "temp_ref_" ++ toString fileIndex
      if env.saveRefOk = false then
        (⟨fileIndex, filename, "failed", some "Failed to save audio", none⟩,
          [tempInput, tempRef])
      else
        match env.convert with
        | .success =>
            (⟨fileIndex, filename, "completed", none,
              some ("batch_" ++ batchId ++ "_file_" ++ toString fileIndex ++ ".wav")⟩,
             (([tempInput, tempRef]).erase tempInput).erase tempRef)
        | .validationFailure m =>
            (⟨fileIndex, filename, "failed", some (convWrap m), none⟩,
              [tempInput, tempRef])
        | .engineException m =>
            (⟨fileIndex, filename, "failed", some (convWrap m), none⟩,
              [tempInput, tempRef])

/-- `BatchProcessor.process_batch_conversion` (batch_processor.py 62-90):
one task per input file in caller order; `asyncio.gather(*tasks,
return_exceptions=True)` returns results in task order, and since
`_process_single_conversion` catches every exception itself, the
`isinstance(result, Exception)` branch never fires — the result list is the
per-job entries in the caller-supplied order. -/
def process_batch_conversion (batchId : String)
    (jobs : List (String × ConvJobEnv)) : List BatchEntry :=
  jobs.enum.map fun p => (process_single_conversion batchId p.1 p.2.1 p.2.2).1

/-- Environment of one `convert_voice` endpoint call: whether the
processing stages before any temp file exists succeed, whether the two
`save_audio` calls succeed, and how the engine call ends. -/
structure ApiEnv where
  preOk : Bool
  saveInputOk : Bool
  saveRefOk : Bool
  convert : ConvOutcome
  deriving DecidableEq

/-- `os.unlink`: removes the file, or raises (`none`) when it is absent. -/
def unlinkChecked (fs : List String) (f : String) : Option (List String) :=
  if f ∈ fs then some (fs.erase f) else none

/-- The `except` handler's cleanup in the `convert_voice` endpoint
(voice_conversion.py 260-270): inside a `try` whose bare `except` swallows
everything, unlink `temp_input_path`, `temp_ref_path`, `temp_output_path`
in that order, each guarded by a `'...' in locals()` check; the first
unlink that raises aborts the remaining ones. -/
def apiExceptCleanup (fs : List String) (assigned : List String) : List String :=
  (([("temp_input_path", "api_temp_input"), ("temp_ref_path", "api_temp_ref"),
     ("temp_output_path", "api_temp_output")]).foldl
    (fun st p =>
      if st.2 then st
      else if p.1 ∈ assigned then
        match unlinkChecked st.1 p.2 with
        | some fs2 => (fs2, false)
        | none => (st.1, true)
      else st)
    (fs, false)).1

/-- The `convert_voice` endpoint (voice_conversion.py 95-286) as far as its
transient files go.  Each `NamedTemporaryFile(delete=False)` creates the
file before `save_audio` runs, and the corresponding `*_path` local is
assigned only after `save_audio` returns; `temp_output_path` is assigned
(166-167) before the engine call, and the engine writes the output file
only on success.  The success path unlinks the inputs (178-179) and the
output (223); every raised exception reaches the handler whose cleanup is
`apiExceptCleanup`, and is re-raised as
`ConversionError(f"Voice conversion failed: {str(e)}")` (286). -/
def api_convert_voice (env : ApiEnv) : Except String String × List String :=
  if env.preOk = false then
    (.error (convWrap "audio processing failed"), apiExceptCleanup [] [])
  else
    let fs1 := ["api_temp_input"]
    if env.saveInputOk = false then
      (.error (convWrap "Failed to save audio"), apiExceptCleanup fs1 [])
    else
      let fs2 := fs1 ++ ["api_temp_ref"]
      if env.saveRefOk = false then
        (.error (convWrap "Failed to save audio"),
          apiExceptCleanup fs2 ["temp_input_path"])
      else
        match env.convert with
        | .success =>
            let fs3 := fs2 ++ ["api_temp_output"]
            let fs4 := (fs3.erase "api_temp_input").erase "api_temp_ref"
            (.ok "ConversionResponse completed", fs4.erase "api_temp_output")
        | .validationFailure m =>
            (.error (convWrap m),
              apiExceptCleanup fs2 ["temp_input_path", "temp_ref_path", "temp_output_path"])
        | .engineException m =>
            (.error (convWrap m),
              apiExceptCleanup fs2 ["temp_input_path", "temp_ref_path", "temp_output_path"])

theorem linspace_length (a b : ℚ) (n : ℕ) : (linspace a b n).length = n := by
  unfold linspace
  split
  · exact List.length_replicate ..
  · rw [List.length_map, List.length_range]

/-- C1: the trim stage of `optimize_for_openvoice` passes inputs of at most
8 s through unmodified; for inputs longer than 8 s it keeps the `top_db=30`
trim, retries once at `top_db=40` when that result is shorter than 4 s,
falls back to the untrimmed original when the retried result is still
shorter than 3 s, and its output duration is never below 3 s — for every
possible behaviour of the underlying `librosa.effects.trim`. -/
theorem trim_stage_policy (trimCore : List ℚ → ℕ → ℚ → List ℚ)
    (xs : List ℚ) (sr : ℕ) (hsr : 0 < sr) :
    (dur xs sr ≤ 8 → optimizeTrimStage trimCore xs sr = xs) ∧
    (8 < dur xs sr →
      3 ≤ dur (optimizeTrimStage trimCore xs sr) sr ∧
      (4 ≤ dur (trimCore xs sr 30) sr →
        optimizeTrimStage trimCore xs sr = trimCore xs sr 30) ∧
      (dur (trimCore xs sr 30) sr < 4 → 3 ≤ dur (trimCore xs sr 40) sr →
        optimizeTrimStage trimCore xs sr = trimCore xs sr 40) ∧
      (dur (trimCore xs sr 30) sr < 4 → dur (trimCore xs sr 40) sr < 3 →
        optimizeTrimStage trimCore xs sr = xs)) := by
  constructor
  · intro h8
    dsimp only [optimizeTrimStage]
    rw [if_neg (by exact not_lt.mpr h8)]
  · intro h8
    dsimp only [optimizeTrimStage]
    rw [if_pos h8]
    by_cases h30 : dur (trimCore xs sr 30) sr < 4
    · rw [if_pos h30]
      by_cases h40 : dur (trimCore xs sr 40) sr < 3
      · rw [if_pos h40]
        refine ⟨by linarith, fun h => absurd h (not_le.mpr h30), fun _ h => absurd h40 (not_lt.mpr h), fun _ _ => rfl⟩
      · rw [if_neg h40]
        exact ⟨not_lt.mp h40, fun h => absurd h (not_le.mpr h30), fun _ _ => rfl,
          fun _ h3 => absurd h3 (not_lt.mp h40).not_lt⟩
    · rw [if_neg h30, if_neg (by linarith [not_lt.mp h30])]
      exact ⟨by linarith [not_lt.mp h30], fun _ => rfl,
        fun h _ => absurd h h30, fun h _ => absurd h h30⟩

/-- Witness for C1 at a concrete input: a 9-sample buffer at 1 Hz lasts 9 s
(> 8 s) and, with a trim that removes nothing, the trim stage keeps at
least 3 s. -/
theorem trim_stage_policy_witness :
    (0 < 1 ∧ 8 < dur (List.replicate 9 (1:ℚ)) 1) ∧
      3 ≤ dur (optimizeTrimStage (fun l _ _ => l) (List.replicate 9 (1:ℚ)) 1) 1 :=
  ⟨⟨by norm_num, by norm_num [dur]⟩,
    ((trim_stage_policy (fun l _ _ => l) (List.replicate 9 (1:ℚ)) 1 (by norm_num)).2
      (by norm_num [dur])).1⟩

theorem intTrunc_le (q : ℚ) (hq : 0 ≤ q) : (intTrunc q : ℚ) ≤ q := by
  unfold intTrunc
  have h0 : (0:ℤ) ≤ ⌊q⌋ := Int.floor_nonneg.mpr hq
  have h1 : (((⌊q⌋.toNat : ℤ) : ℚ)) = ((⌊q⌋.toNat : ℕ) : ℚ) := by push_cast; ring
  rw [← h1, Int.toNat_of_nonneg h0]
  exact Int.floor_le q

theorem lt_of_lt_intTrunc {n : ℕ} {q : ℚ} (h : n < intTrunc q) : (n : ℚ) < q := by
  have h0 : 0 < intTrunc q := Nat.pos_of_ne_zero (by omega)
  have hq : 0 ≤ q := by
    by_contra hneg
    have : Int.floor q ≤ 0 := Int.floor_nonpos (le_of_lt (not_le.mp hneg))
    simp [intTrunc, Int.toNat_of_nonpos this] at h0
  calc (n : ℚ) < (intTrunc q : ℚ) := by exact_mod_cast h
    _ ≤ q := intTrunc_le q hq

theorem inplaceMulPrefix_none {xs curve : List ℚ} (h : xs.length < curve.length)
    (hne : xs.length ≠ 0) : inplaceMulPrefix xs curve = none := by
  unfold inplaceMulPrefix
  rw [if_pos ⟨h, fun hc => hne hc.1⟩]

theorem inplaceMulPrefix_some {xs curve : List ℚ} (h : curve.length ≤ xs.length) :
    inplaceMulPrefix xs curve =
      some (List.zipWith (· * ·) (xs.take curve.length) curve ++ xs.drop curve.length) := by
  unfold inplaceMulPrefix
  rw [if_neg (fun hc => absurd hc.1 (not_lt.mpr h))]

theorem inplaceMulPrefix_some_length {xs curve : List ℚ} (h : curve.length ≤ xs.length) :
    (List.zipWith (· * ·) (xs.take curve.length) curve ++ xs.drop curve.length).length
      = xs.length := by
  rw [List.length_append, List.length_zipWith, List.length_take, List.length_drop]
  omega

theorem inplaceMulSuffix_some {xs curve : List ℚ} (h : curve.length ≤ xs.length) :
    inplaceMulSuffix xs curve =
      some (xs.take (xs.length - curve.length) ++
        List.zipWith (· * ·) (xs.drop (xs.length - curve.length)) curve) := by
  unfold inplaceMulSuffix
  rw [if_neg (fun hc => absurd hc.1 (not_lt.mpr h))]

theorem inplaceMulSuffix_some_length {xs curve : List ℚ} (h : curve.length ≤ xs.length) :
    (xs.take (xs.length - curve.length) ++
      List.zipWith (· * ·) (xs.drop (xs.length - curve.length)) curve).length
      = xs.length := by
  rw [List.length_append, List.length_zipWith, List.length_take, List.length_drop]
  omega

theorem applyFadeOpt_some {xs : List ℚ} {sr : ℕ} {fi fo : ℚ}
    (hfi : intTrunc (fi * sr) ≤ xs.length) (hfo : intTrunc (fo * sr) ≤ xs.length) :
    ∃ ys, applyFadeOpt xs sr fi fo = some ys ∧ ys.length = xs.length := by
  obtain ⟨xs1, h1, hlen1⟩ : ∃ xs1,
      (if 0 < intTrunc (fi * sr)
        then inplaceMulPrefix xs (linspace 0 1 (intTrunc (fi * sr)))
        else some xs) = some xs1 ∧ xs1.length = xs.length := by
    by_cases h : 0 < intTrunc (fi * sr)
    · have hc : (linspace 0 1 (intTrunc (fi * sr))).length ≤ xs.length := by
        rw [linspace_length]; exact hfi
      exact ⟨_, by rw [if_pos h, inplaceMulPrefix_some hc], inplaceMulPrefix_some_length hc⟩
    · exact ⟨xs, by rw [if_neg h], rfl⟩
  obtain ⟨xs2, h2⟩ : ∃ xs2,
      (if 0 < intTrunc (fo * sr)
        then inplaceMulSuffix xs1 (linspace 1 0 (intTrunc (fo * sr)))
        else some xs1) = some xs2 ∧ xs2.length = xs1.length := by
    by_cases h : 0 < intTrunc (fo * sr)
    · have hc : (linspace 1 0 (intTrunc (fo * sr))).length ≤ xs1.length := by
        rw [linspace_length, hlen1]; exact hfo
      exact ⟨_, by rw [if_pos h, inplaceMulSuffix_some hc], inplaceMulSuffix_some_length hc⟩
    · exact ⟨xs1, by rw [if_neg h], rfl⟩
  refine ⟨xs2, ?_, by rw [h2.2, hlen1]⟩
  dsimp only [applyFadeOpt]
  rw [h1, Option.some_bind, h2.1]

theorem apply_fade_error_of_lt_fadeIn (xs : List ℚ) (sr : ℕ) (fi fo : ℚ)
    (hne : xs ≠ []) (hlt : xs.length < intTrunc (fi * sr)) :
    apply_fade xs sr fi fo = .error "Failed to apply fade" := by
  have hfis : 0 < intTrunc (fi * sr) := lt_of_le_of_lt (Nat.zero_le _) hlt
  have hnone : applyFadeOpt xs sr fi fo = none := by
    dsimp only [applyFadeOpt]
    rw [if_pos hfis,
      inplaceMulPrefix_none (by rw [linspace_length]; exact hlt)
        (by simpa [List.length_eq_zero] using hne),
      Option.none_bind]
  unfold apply_fade
  rw [hnone]

/-- C9 (amended): `pad_audio_to_minimum` leaves the caller's buffer unchanged
(`np.concatenate` allocates a new array; the early return hands the caller's
array back unmodified), but `apply_fade` scales the fade regions of the
caller's array in place and returns that same array, so after a successful
call the caller's buffer equals the returned faded buffer rather than its
original contents. -/
theorem stage_buffer_effects :
    (∀ (xs : List ℚ) (sr : ℕ) (minDur : ℚ), (padAudioCall xs sr minDur).callerBuf = xs) ∧
    (∀ (xs : List ℚ) (sr : ℕ) (fi fo : ℚ) (r : NpCallRes),
      apply_fade xs sr fi fo = .ok r → r.callerBuf = r.ret) := by
  refine ⟨fun _ _ _ => rfl, fun xs sr fi fo r h => ?_⟩
  unfold apply_fade at h
  cases happ : applyFadeOpt xs sr fi fo with
  | none => rw [happ] at h; exact absurd h (by simp)
  | some ys => rw [happ] at h; simp only [Except.ok.injEq] at h; rw [← h]

/-- Witness for C9 at a concrete call: fading `[1, 1]` at 10 Hz with 0.1 s
fades succeeds, and the caller's buffer afterwards equals the returned
buffer. -/
theorem stage_buffer_effects_witness :
    apply_fade ([1, 1] : List ℚ) 10 (1/10) (1/10) = .ok ⟨[0, 1], [0, 1]⟩ ∧
      (NpCallRes.mk [0, 1] [0, 1]).callerBuf = (NpCallRes.mk [0, 1] [0, 1]).ret :=
  ⟨by
    have h : intTrunc (1:ℚ) = 1 := by norm_num [intTrunc]
    norm_num [apply_fade, applyFadeOpt, inplaceMulPrefix, inplaceMulSuffix, linspace, h],
   stage_buffer_effects.2 [1, 1] 10 (1/10) (1/10) ⟨[0, 1], [0, 1]⟩
    (by
      have h : intTrunc (1:ℚ) = 1 := by norm_num [intTrunc]
      norm_num [apply_fade, applyFadeOpt, inplaceMulPrefix, inplaceMulSuffix, linspace, h])⟩

/-- Counterexample to C9 as stated: after `apply_fade([1, 1], 10, 0.1, 0.1)`
the caller's buffer holds `[0, 1]`, not its original samples `[1, 1]` — the
fade stage mutates the input buffer in place (`audio_data[:n] *= curve`). -/
theorem apply_fade_mutates_caller_buffer :
    apply_fade ([1, 1] : List ℚ) 10 (1/10) (1/10) = .ok ⟨[0, 1], [0, 1]⟩ ∧
      ([0, 1] : List ℚ) ≠ [1, 1] := by
  constructor
  · have h : intTrunc (1:ℚ) = 1 := by norm_num [intTrunc]
    norm_num [apply_fade, applyFadeOpt, inplaceMulPrefix, inplaceMulSuffix, linspace, h]
  · simp

/-- C10 (amended): `apply_fade` raises `AudioProcessingError` on every
non-empty buffer with fewer samples than the fade window rounded down to
whole samples, `int(fade_in * sample_rate)` (the in-place numpy broadcast
fails), and consequently `optimize_for_openvoice` — whose fades are 0.05 s —
fails on every non-empty input with fewer than `int(0.05 * sample_rate)`
samples instead of padding it.  (As stated the claim measured the window as
`fade duration × sample_rate` without the `int` truncation; a buffer of
exactly `int(0.05·sr)` samples can be shorter than 0.05 s yet fade
successfully — see the counterexample.) -/
theorem apply_fade_short_buffer_error :
    (∀ (xs : List ℚ) (sr : ℕ) (fi fo : ℚ), xs ≠ [] → xs.length < intTrunc (fi * sr) →
      apply_fade xs sr fi fo = .error "Failed to apply fade") ∧
    (∀ (trimCore : List ℚ → ℕ → ℚ → List ℚ) (xs : List ℚ) (sr : ℕ),
      0 < sr → xs ≠ [] → xs.length < intTrunc ((1/20 : ℚ) * sr) →
      optimize_for_openvoice trimCore xs sr = .error "Failed to apply fade") := by
  refine ⟨apply_fade_error_of_lt_fadeIn, fun tc xs sr hsr hne hlt => ?_⟩
  have hsrq : (0:ℚ) < sr := by exact_mod_cast hsr
  have hq : (xs.length : ℚ) < (1/20) * sr := lt_of_lt_intTrunc hlt
  have hd : dur xs sr < 1/20 := by
    rw [dur, div_lt_iff₀ hsrq]
    linarith
  have h8 : dur xs sr ≤ 8 := by linarith
  have hstage : optimizeTrimStage tc xs sr = xs := by
    dsimp only [optimizeTrimStage]
    rw [if_neg (not_lt.mpr h8)]
  unfold optimize_for_openvoice
  rw [hstage, apply_fade_error_of_lt_fadeIn xs sr (1/20) (1/20) hne hlt]
  rfl

/-- Witness for C10 at a concrete input: `[1, 1]` at 60 Hz has 2 samples,
fewer than `int(0.05 * 60) = 3`, so both the fade and the whole
optimization pipeline fail. -/
theorem apply_fade_short_buffer_error_witness :
    (([1, 1] : List ℚ) ≠ [] ∧
      ([1, 1] : List ℚ).length < intTrunc ((1/20 : ℚ) * ((60:ℕ) : ℚ)) ∧ 0 < 60) ∧
    apply_fade ([1, 1] : List ℚ) 60 (1/20) (1/20) = .error "Failed to apply fade" ∧
    optimize_for_openvoice (fun l _ _ => l) ([1, 1] : List ℚ) 60 =
      .error "Failed to apply fade" :=
  ⟨⟨by simp, by norm_num [intTrunc, Int.toNat_ofNat], by norm_num⟩,
   apply_fade_short_buffer_error.1 [1, 1] 60 (1/20) (1/20) (by simp)
     (by norm_num [intTrunc, Int.toNat_ofNat]),
   apply_fade_short_buffer_error.2 (fun l _ _ => l) [1, 1] 60 (by norm_num) (by simp)
     (by norm_num [intTrunc, Int.toNat_ofNat])⟩

/-- Counterexample to C10 as stated: a 1102-sample buffer at 22050 Hz is
non-empty and shorter than the requested fade window measured as
`0.05 × 22050 = 1102.5` samples, yet `apply_fade` succeeds, because the code
truncates the window to `int(0.05 * 22050) = 1102` samples. -/
theorem fade_window_truncation_counterexample :
    (List.replicate 1102 (1:ℚ)) ≠ [] ∧
    ((List.replicate 1102 (1:ℚ)).length : ℚ) < (1/20 : ℚ) * 22050 ∧
    (apply_fade (List.replicate 1102 (1:ℚ)) 22050 (1/20) (1/20)).isOk = true := by
  refine ⟨?_, by norm_num, ?_⟩
  · intro hcontra
    have := congrArg List.length hcontra
    simp only [List.length_replicate, List.length_nil] at this
    omega
  have h : intTrunc ((1/20 : ℚ) * ((22050:ℕ) : ℚ)) = 1102 := by
    have hf : Int.floor ((1/20 : ℚ) * ((22050:ℕ) : ℚ)) = 1102 := by norm_num
    rw [intTrunc, hf]
    rfl
  obtain ⟨ys, hy, -⟩ := @applyFadeOpt_some (List.replicate 1102 (1:ℚ)) 22050 (1/20) (1/20)
    (by rw [h, List.length_replicate]) (by rw [h, List.length_replicate])
  unfold apply_fade
  rw [hy]
  rfl

theorem lt_intTrunc_add_one (q : ℚ) (hq : 0 ≤ q) : q < (intTrunc q : ℚ) + 1 := by
  unfold intTrunc
  have h0 : (0:ℤ) ≤ ⌊q⌋ := Int.floor_nonneg.mpr hq
  have h1 : (((⌊q⌋.toNat : ℤ) : ℚ)) = ((⌊q⌋.toNat : ℕ) : ℚ) := by push_cast; ring
  rw [← h1, Int.toNat_of_nonneg h0]
  exact Int.lt_floor_add_one q

theorem npTile_length (xs : List ℚ) (k : ℕ) : (npTile xs k).length = k * xs.length := by
  induction k with
  | zero => simp [npTile]
  | succ n ih => simp [npTile, ih, Nat.succ_mul]; ring

theorem npTile_get? (xs : List ℚ) (k : ℕ) : ∀ j, j < k * xs.length →
    (npTile xs k).get? j = xs.get? (j % xs.length) := by
  induction k with
  | zero => intro j hj; omega
  | succ n ih =>
    intro j hj
    rw [Nat.succ_mul] at hj
    by_cases hjlt : j < xs.length
    · simp only [npTile]
      rw [List.get?_append hjlt, Nat.mod_eq_of_lt hjlt]
    · have hle : xs.length ≤ j := not_lt.mp hjlt
      simp only [npTile]
      rw [List.get?_append_right hle, ih (j - xs.length) (by omega),
        Nat.mod_eq_sub_mod hle]

/-- C7 (amended): the repetition repair lives in `NativeReferenceGenerator`:
a generated reference shorter than the 7.0 s floor is repaired by looping
its own samples (every output sample is the input sample at the index
modulo the input length — no silence is introduced) to exactly
`7 × sample_rate` samples, and a reference meeting the floor passes through
unchanged.  (The `convert_voice` endpoint, by contrast, silence-pads a short
user-supplied reference — see the counterexample.) -/
theorem native_reference_repetition :
    (∀ (xs : List ℚ) (sr : ℕ), 7 ≤ dur xs sr →
      generate_native_reference_repair xs sr = xs) ∧
    (∀ (xs : List ℚ) (sr : ℕ), 0 < sr → 0 < xs.length → dur xs sr < 7 →
      (generate_native_reference_repair xs sr).length = 7 * sr ∧
      ∀ j, j < 7 * sr →
        (generate_native_reference_repair xs sr).get? j = xs.get? (j % xs.length)) := by
  constructor
  · intro xs sr h7
    dsimp only [generate_native_reference_repair]
    rw [if_neg (not_lt.mpr h7)]
  · intro xs sr hsr hx hd
    have hrepair : generate_native_reference_repair xs sr =
        (npTile xs (intTrunc (7 / dur xs sr) + 1)).take (intTrunc ((7:ℚ) * sr)) := by
      dsimp only [generate_native_reference_repair]
      rw [if_pos hd]
    have h7 : intTrunc ((7:ℚ) * (sr:ℚ)) = 7 * sr := by
      have hc : ((7:ℚ) * sr) = ((7 * sr : ℕ) : ℚ) := by push_cast; ring
      rw [intTrunc, hc, Int.floor_natCast, Int.toNat_natCast]
    have hd0 : 0 < dur xs sr := by
      rw [dur]
      have h1 : (0:ℚ) < (xs.length : ℚ) := by exact_mod_cast hx
      have h2 : (0:ℚ) < (sr : ℚ) := by exact_mod_cast hsr
      exact div_pos h1 h2
    have hsrq : (0:ℚ) < (sr : ℚ) := by exact_mod_cast hsr
    set k : ℕ := intTrunc (7 / dur xs sr) + 1 with hkdef
    have hq2 : (7:ℚ) * sr < (k:ℚ) * xs.length := by
      have hstep : (7:ℚ) / dur xs sr < (intTrunc (7 / dur xs sr) : ℚ) + 1 :=
        lt_intTrunc_add_one _ (le_of_lt (div_pos (by norm_num) hd0))
      have hkq : (7:ℚ) < (k:ℚ) * dur xs sr := by
        have hc : (k:ℚ) = (intTrunc (7 / dur xs sr) : ℚ) + 1 := by
          rw [hkdef]; push_cast; ring
        rw [hc]
        exact (div_lt_iff₀ hd0).mp hstep
      rw [dur, ← mul_div_assoc] at hkq
      exact (lt_div_iff₀ hsrq).mp hkq
    have hklen : 7 * sr < k * xs.length := by exact_mod_cast hq2
    refine ⟨?_, fun j hj => ?_⟩
    · rw [hrepair, h7, List.length_take, npTile_length]
      omega
    · rw [hrepair, h7, List.get?_take hj]
      exact npTile_get? xs k j (by omega)

/-- Witness for C7 at a concrete input: a 1-sample buffer at 1 Hz (1 s < 7 s)
is repaired to exactly 7 samples and sample 3 of the output is the input
sample at index 3 mod 1. -/
theorem native_reference_repetition_witness :
    (0 < 1 ∧ 0 < ([1] : List ℚ).length ∧ dur ([1] : List ℚ) 1 < 7) ∧
    (generate_native_reference_repair ([1] : List ℚ) 1).length = 7 * 1 ∧
    (generate_native_reference_repair ([1] : List ℚ) 1).get? 3 =
      ([1] : List ℚ).get? (3 % ([1] : List ℚ).length) :=
  ⟨⟨by norm_num, by norm_num, by norm_num [dur]⟩,
   (native_reference_repetition.2 [1] 1 (by norm_num) (by norm_num) (by norm_num [dur])).1,
   (native_reference_repetition.2 [1] 1 (by norm_num) (by norm_num) (by norm_num [dur])).2
     3 (by norm_num)⟩

/-- Counterexample to C7 as stated: the `convert_voice` endpoint's reference
preparation hands the engine a silence-padded reference.  A 3-sample
reference of ones at 2 Hz (1.5 s) comes out as the input followed by nine
zero samples — appended silence, not a repetition of the buffer's own
(nonzero) samples. -/
theorem api_reference_silence_padded :
    api_prepare_reference (fun l _ _ => l) ([1, 1, 1] : List ℚ) 2 =
      .ok ([1, 1, 1] ++ List.replicate 9 (0:ℚ)) ∧
    List.replicate 9 (0:ℚ) ≠ [] ∧ (0:ℚ) ≠ 1 := by
  refine ⟨?_, by rw [← List.length_pos]; simp, by norm_num⟩
  have h05 : intTrunc ((1:ℚ)/10) = 0 := by
    have hf : Int.floor ((1:ℚ)/10) = 0 := by norm_num
    rw [intTrunc, hf]
    rfl
  have h9 : intTrunc (9:ℚ) = 9 := by
    have hf : Int.floor ((9:ℚ)) = 9 := by norm_num
    rw [intTrunc, hf]
    rfl
  norm_num [api_prepare_reference, optimize_for_openvoice, optimizeTrimStage, apply_fade,
    applyFadeOpt, pad_audio_to_minimum, dur, h05, h9, Except.map]

theorem peakAbs_cons (a : ℚ) (l : List ℚ) : peakAbs (a :: l) = max |a| (peakAbs l) := rfl

theorem peakAbs_nonneg (xs : List ℚ) : 0 ≤ peakAbs xs := by
  induction xs with
  | nil => exact le_refl 0
  | cons a l ih => exact le_trans ih (le_max_right _ _)

theorem peakAbs_map_mul (xs : List ℚ) (c : ℚ) :
    peakAbs (xs.map fun x => x * c) = peakAbs xs * |c| := by
  induction xs with
  | nil => simp [peakAbs]
  | cons a l ih =>
    simp only [List.map_cons, peakAbs_cons, ih, abs_mul]
    rw [max_mul_of_nonneg _ _ (abs_nonneg c)]

theorem peakAbs_librosa_util_normalize {xs : List ℚ} (h : 0 < peakAbs xs) :
    peakAbs (librosa_util_normalize xs) = 1 := by
  unfold librosa_util_normalize
  rw [if_pos h]
  have : (fun x => x / peakAbs xs) = (fun x => x * (peakAbs xs)⁻¹) := by
    funext x
    rw [div_eq_mul_inv]
  rw [this, peakAbs_map_mul, abs_of_nonneg (inv_nonneg.mpr (le_of_lt h)),
    mul_inv_cancel₀ (ne_of_gt h)]

theorem applyPeakLimit_le (ys : List ℚ) (L : ℚ) (hL : 0 < L) :
    peakAbs (applyPeakLimit ys L) ≤ L := by
  unfold applyPeakLimit
  by_cases h : L < peakAbs ys
  · have hp : 0 < peakAbs ys := lt_trans hL h
    rw [if_pos h, peakAbs_map_mul,
      abs_of_nonneg (le_of_lt (div_pos hL hp)), mul_comm,
      div_mul_cancel₀ _ (ne_of_gt hp)]
  · rw [if_neg h]
    exact not_lt.mp h

/-- C2 (amended): the hard peak ceiling holds after gain on the paths inside
the `try` block — the measured-loudness path for every possible gain, and
the NaN-loudness peak-normalization fallback — so their output peak is at
most the (positive) linear peak limit.  When pyloudnorm is unavailable or
the measurement raises, the function instead returns plain peak
normalization with no ceiling, whose peak can reach 1 and so exceed
`10^(-1/20)` — see the counterexample. -/
theorem normalize_loudness_peak_ceiling (xs : List ℚ) (g L : ℚ) (hL : 0 < L) :
    peakAbs (normalize_loudness (.measured g) xs L) ≤ L ∧
    peakAbs (normalize_loudness .nanLoudness xs L) ≤ L :=
  ⟨applyPeakLimit_le _ _ hL, applyPeakLimit_le _ _ hL⟩

/-- Witness for C2 at a concrete input. -/
theorem normalize_loudness_peak_ceiling_witness :
    (0 < (89/100 : ℚ)) ∧
    peakAbs (normalize_loudness (.measured 2) [3] (89/100)) ≤ 89/100 ∧
    peakAbs (normalize_loudness .nanLoudness [3] (89/100)) ≤ 89/100 :=
  ⟨by norm_num, (normalize_loudness_peak_ceiling [3] 2 (89/100) (by norm_num)).1,
    (normalize_loudness_peak_ceiling [3] 2 (89/100) (by norm_num)).2⟩

/-- Counterexample to C2 as stated: when pyloudnorm is unavailable (or the
measurement raises), `normalize_loudness` returns
`librosa.util.normalize(audio_data)` with no peak ceiling: on `[1/2]` the
returned peak is 1, while the claimed bound `10^(peak_limit_db/20)` at the
default `peak_limit_db = -1.0` is `10^(-1/20) < 1`.  (The peak-limit
parameter is never read on these paths; `89/100` stands in for the
irrational `10^(-1/20)`.) -/
theorem normalize_loudness_fallback_exceeds_ceiling :
    peakAbs (normalize_loudness .importErr [(1:ℚ)/2] (89/100)) = 1 ∧
    peakAbs (normalize_loudness .exceptionRaised [(1:ℚ)/2] (89/100)) = 1 ∧
    (10:ℝ) ^ ((-1:ℝ)/20) < 1 := by
  refine ⟨?_, ?_, Real.rpow_lt_one_of_one_lt_of_neg (by norm_num) (by norm_num)⟩
  all_goals
    show peakAbs (librosa_util_normalize [(1:ℚ)/2]) = 1
    exact peakAbs_librosa_util_normalize (by norm_num [peakAbs])

/-- C8: the Format Normalizer is idempotent at a fixed target rate — for
every buffer, source rate and target rate (and every behaviour of the
resampler), applying `ensure_consistent_format` to its own output is a
no-op: the output is already mono, carries the target rate, and is float32,
so the down-mix, the resample and the dtype cast are all skipped. -/
theorem ensure_consistent_format_idempotent
    (resampleCore : List ℚ → ℕ → ℕ → List ℚ) (a : NpAudio) (sampleRate r : ℕ) :
    ensure_consistent_format resampleCore
        (ensure_consistent_format resampleCore a sampleRate r).1
        (ensure_consistent_format resampleCore a sampleRate r).2 r =
      ensure_consistent_format resampleCore a sampleRate r := by
  cases a with
  | mono d dt => cases dt <;> simp [ensure_consistent_format, toMonoData, audioDtype]
  | multi f dt => cases dt <;> simp [ensure_consistent_format, toMonoData, audioDtype]

/-- C4: when the voice-activity computation raises, the analyzer does not
propagate the error but returns the single segment `(0, total_duration)`
covering the entire buffer, so the summed voice duration equals the total
duration and is positive for every non-empty buffer — downstream duration
checks never see zero voice content due to analyzer failure. -/
theorem vad_fail_open (comp : Except String (List (ℚ × ℚ))) (xs : List ℚ)
    (sr : ℕ) (e : String) (h : comp = .error e) :
    analyze_voice_content_vc comp xs sr = [(0, dur xs sr)] ∧
    voice_duration_of (analyze_voice_content_vc comp xs sr) = dur xs sr ∧
    (0 < xs.length → 0 < sr →
      0 < voice_duration_of (analyze_voice_content_vc comp xs sr)) := by
  subst h
  have hval : voice_duration_of (analyze_voice_content_vc (.error e) xs sr) = dur xs sr := by
    simp [analyze_voice_content_vc, voice_duration_of]
  refine ⟨rfl, hval, fun hx hsr => ?_⟩
  rw [hval, dur]
  have h1 : (0:ℚ) < (xs.length : ℚ) := by exact_mod_cast hx
  have h2 : (0:ℚ) < (sr : ℚ) := by exact_mod_cast hsr
  exact div_pos h1 h2

/-- Witness for C4 at a concrete input: a failing analyzer on a 1-sample
buffer at 1 Hz yields the whole-buffer segment with positive voice
duration. -/
theorem vad_fail_open_witness :
    analyze_voice_content_vc (.error "librosa failure") ([1] : List ℚ) 1 =
      [(0, dur ([1] : List ℚ) 1)] ∧
    0 < voice_duration_of (analyze_voice_content_vc (.error "librosa failure")
      ([1] : List ℚ) 1) :=
  ⟨(vad_fail_open (.error "librosa failure") [1] 1 "librosa failure" rfl).1,
   (vad_fail_open (.error "librosa failure") [1] 1 "librosa failure" rfl).2.2
     (by norm_num) (by norm_num)⟩

theorem listIsPre_append (t r : List Char) : listIsPre t (t ++ r) = true := by
  induction t with
  | nil => rfl
  | cons a t ih => simp [listIsPre, ih]

theorem subOccurs_of_listIsPre {t s : List Char} (h : listIsPre t s = true) :
    subOccurs t s = true := by
  cases s with
  | nil => exact h
  | cons b rest => simp [subOccurs, h]

theorem subOccurs_append_left (a : List Char) {t s : List Char}
    (h : subOccurs t s = true) : subOccurs t (a ++ s) = true := by
  induction a with
  | nil => exact h
  | cons x xs ih => simp [subOccurs, ih]

theorem strContains_append_right (s₁ s₂ pat : String)
    (h : strContains s₂ pat = true) : strContains (s₁ ++ s₂) pat = true := by
  unfold strContains at h ⊢
  rw [String.data_append]
  exact subOccurs_append_left _ h

theorem strContains_mid (s₁ pat s₂ : String) :
    strContains (s₁ ++ pat ++ s₂) pat = true := by
  unfold strContains
  simp only [String.data_append]
  rw [List.append_assoc]
  exact subOccurs_append_left _ (subOccurs_of_listIsPre (listIsPre_append _ _))

theorem inputShortMsg_decomp (d : ℚ) :
    validationWrap (inputShortMsg d) =
      ("Audio validation failed: " ++ "Input audio too short: ") ++ fmt2 d ++
        ("s. Minimum required: " ++ minDurationStr ++ "s. Please record for at least " ++
          minDurationStr ++ " seconds of continuous speech.") := by
  simp only [validationWrap, inputShortMsg, String.append_assoc]

theorem insufficientVoiceMsg_decomp (v d : ℚ) :
    validationWrap (insufficientVoiceMsg v d) =
      ("Audio validation failed: " ++ "Insufficient voice content: ") ++ fmt2 v ++
        ("s detected out of " ++ fmt2 d ++ "s total. Voice content percentage: " ++
          fmt1 (v / d * 100) ++
          "%. Please speak clearly for at least 1 second. Try speaking louder or closer to the microphone.") := by
  simp only [validationWrap, insufficientVoiceMsg, String.append_assoc]

theorem insufficientVoiceMsg_decomp2 (v d : ℚ) :
    validationWrap (insufficientVoiceMsg v d) =
      ("Audio validation failed: " ++ "Insufficient voice content: " ++ fmt2 v ++
        "s detected out of " ++ fmt2 d ++ "s total. Voice content percentage: " ++
        fmt1 (v / d * 100)) ++
      "%. Please speak clearly for at least 1 second. Try speaking louder or closer to the microphone." := by
  simp only [validationWrap, insufficientVoiceMsg, String.append_assoc]

theorem refShortMsg_decomp (r : ℚ) :
    validationWrap (refShortMsg r) =
      ("Audio validation failed: " ++ "Reference audio too short: ") ++ fmt2 r ++
        "s. Minimum required: 0.5s. Please use a reference audio that is at least 0.5 seconds long." := by
  simp only [validationWrap, refShortMsg, String.append_assoc]

/-- C3 (amended): along the librosa path the validation returns success
exactly when none of the three conditions holds (it raises `ConversionError`
exactly when input duration < 1.0 s, or voice content < 0.5 s, or reference
duration < 0.5 s); the input-too-short and reference-too-short messages
contain both the measured value and the required minimum ("1.0s", "0.5s");
the insufficient-voice message contains the measured value but states
"at least 1 second" rather than the actual 0.5 s minimum — see the
counterexample. -/
theorem validate_audio_length_spec (d r : ℚ) (segs : List (ℚ × ℚ)) :
    ((validate_audio_length d r segs = .ok ()) ↔
      (1 ≤ d ∧ 1/2 ≤ voice_duration_of segs ∧ 1/2 ≤ r)) ∧
    (0 < d → d < 1 →
      validate_audio_length d r segs = .error (validationWrap (inputShortMsg d)) ∧
      strContains (validationWrap (inputShortMsg d)) (fmt2 d) = true ∧
      strContains (validationWrap (inputShortMsg d)) "1.0s" = true) ∧
    (1 ≤ d → voice_duration_of segs < 1/2 →
      validate_audio_length d r segs =
        .error (validationWrap (insufficientVoiceMsg (voice_duration_of segs) d)) ∧
      strContains (validationWrap (insufficientVoiceMsg (voice_duration_of segs) d))
        (fmt2 (voice_duration_of segs)) = true ∧
      strContains (validationWrap (insufficientVoiceMsg (voice_duration_of segs) d))
        "at least 1 second" = true) ∧
    (1 ≤ d → 1/2 ≤ voice_duration_of segs → r < 1/2 →
      validate_audio_length d r segs = .error (validationWrap (refShortMsg r)) ∧
      strContains (validationWrap (refShortMsg r)) (fmt2 r) = true ∧
      strContains (validationWrap (refShortMsg r)) "0.5s" = true) := by
  refine ⟨?_, fun hd0 hd1 => ⟨?_, ?_, ?_⟩, fun hd1 hv => ⟨?_, ?_, ?_⟩,
    fun hd1 hv hr => ⟨?_, ?_, ?_⟩⟩
  · dsimp only [validate_audio_length]
    split_ifs with h0 h1 h2 h3
    · constructor
      · intro hcontra
        exact hcontra.elim
      · rintro ⟨hle, -, -⟩
        rw [h0] at hle
        norm_num at hle
    · constructor
      · intro hcontra
        exact hcontra.elim
      · rintro ⟨hle, -, -⟩
        exact absurd hle (not_le.mpr h1)
    · constructor
      · intro hcontra
        exact hcontra.elim
      · rintro ⟨-, hle, -⟩
        exact absurd hle (not_le.mpr h2)
    · constructor
      · intro hcontra
        exact hcontra.elim
      · rintro ⟨-, -, hle⟩
        exact absurd hle (not_le.mpr h3)
    · exact ⟨fun _ => ⟨not_lt.mp h1, not_lt.mp h2, not_lt.mp h3⟩, fun _ => rfl⟩
  · dsimp only [validate_audio_length]
    rw [if_neg (ne_of_gt hd0), if_pos hd1]
  · rw [inputShortMsg_decomp]
    exact strContains_mid _ _ _
  · rw [inputShortMsg_decomp]
    exact strContains_append_right _ _ _ (by decide)
  · dsimp only [validate_audio_length]
    rw [if_neg (by intro h; rw [h] at hd1; norm_num at hd1),
      if_neg (not_lt.mpr hd1), if_pos hv]
  · rw [insufficientVoiceMsg_decomp]
    exact strContains_mid _ _ _
  · rw [insufficientVoiceMsg_decomp2]
    exact strContains_append_right _ _ _ (by decide)
  · dsimp only [validate_audio_length]
    rw [if_neg (by intro h; rw [h] at hd1; norm_num at hd1),
      if_neg (not_lt.mpr hd1), if_neg (not_lt.mpr hv), if_pos hr]
  · rw [refShortMsg_decomp]
    exact strContains_mid _ _ _
  · rw [refShortMsg_decomp]
    exact strContains_append_right _ _ _ (by decide)

theorem roundHalfEven_of_eq_natCast {x : ℚ} {n : ℕ} (h : x = (n:ℚ)) :
    roundHalfEven x = n := by
  subst h
  unfold roundHalfEven
  rw [Int.floor_natCast]
  norm_num

theorem fmt2_eval (q : ℚ) (n : ℕ) (h : |q| * 100 = (n:ℚ)) (hq : ¬(q < 0)) :
    fmt2 q = "" ++ toString (n / 100) ++ "." ++
      (if n % 100 < 10 then "0" ++ toString (n % 100) else toString (n % 100)) := by
  unfold fmt2
  rw [roundHalfEven_of_eq_natCast h, if_neg hq]

theorem fmt1_eval (q : ℚ) (n : ℕ) (h : |q| * 10 = (n:ℚ)) (hq : ¬(q < 0)) :
    fmt1 q = "" ++ toString (n / 10) ++ "." ++ toString (n % 10) := by
  unfold fmt1
  rw [roundHalfEven_of_eq_natCast h, if_neg hq]

/-- Witness for C3 at the spec's own scenario: a 0.8 s input fails the
1.0 s floor and the message contains the measured value and "1.0s". -/
theorem validate_audio_length_spec_witness :
    ((0:ℚ) < 4/5 ∧ (4/5:ℚ) < 1) ∧
    validate_audio_length (4/5) 1 [(0, 4/5)] =
      .error (validationWrap (inputShortMsg (4/5))) ∧
    strContains (validationWrap (inputShortMsg (4/5))) (fmt2 (4/5)) = true ∧
    strContains (validationWrap (inputShortMsg (4/5))) "1.0s" = true :=
  ⟨⟨by norm_num, by norm_num⟩,
   ((validate_audio_length_spec (4/5) 1 [(0, 4/5)]).2.1 (by norm_num) (by norm_num)).1,
   ((validate_audio_length_spec (4/5) 1 [(0, 4/5)]).2.1 (by norm_num) (by norm_num)).2.1,
   ((validate_audio_length_spec (4/5) 1 [(0, 4/5)]).2.1 (by norm_num) (by norm_num)).2.2⟩

/-- Counterexample to C3 as stated: a 2.0 s input with only 0.3 s of voice
content fails the 0.5 s voice-content check, and the raised message
contains the measured "0.30" but nowhere the required minimum "0.5" — it
says "at least 1 second" instead. -/
theorem insufficient_voice_message_lacks_minimum :
    validate_audio_length 2 1 [(0, 3/10)] =
      .error (validationWrap (insufficientVoiceMsg (3/10) 2)) ∧
    strContains (validationWrap (insufficientVoiceMsg (3/10) 2)) "0.30" = true ∧
    strContains (validationWrap (insufficientVoiceMsg (3/10) 2)) "0.5" = false := by
  have hv : fmt2 ((3:ℚ)/10) = "0.30" := by
    rw [fmt2_eval ((3:ℚ)/10) 30 (by rw [abs_of_nonneg] <;> norm_num) (by norm_num)]
    decide
  have hd2 : fmt2 (2:ℚ) = "2.00" := by
    rw [fmt2_eval 2 200 (by rw [abs_of_nonneg] <;> norm_num) (by norm_num)]
    decide
  have hp : fmt1 ((3:ℚ)/10 / 2 * 100) = "15.0" := by
    rw [fmt1_eval _ 150 (by rw [abs_of_nonneg] <;> norm_num) (by norm_num)]
    decide
  have hm : validationWrap (insufficientVoiceMsg (3/10) 2) =
      "Audio validation failed: " ++ ("Insufficient voice content: " ++ "0.30" ++
        "s detected out of " ++ "2.00" ++ "s total. Voice content percentage: " ++ "15.0" ++
        "%. Please speak clearly for at least 1 second. Try speaking louder or closer to the microphone.") := by
    rw [validationWrap, insufficientVoiceMsg, hv, hd2, hp]
  refine ⟨?_, ?_, ?_⟩
  · have hvd : voice_duration_of [((0:ℚ), 3/10)] = 3/10 := by
      simp [voice_duration_of]
    dsimp only [validate_audio_length]
    rw [hvd, if_neg (by norm_num), if_neg (by norm_num), if_pos (by norm_num)]
  · rw [hm]
    decide
  · rw [hm]
    decide

/-- C5 (amended): in the single-conversion endpoint every exit path —
success, validation failure, engine exception — removes all transient
files (the `except` handler's guarded unlinks do the cleanup on the failure
paths).  In a batch job, however, the temp files are removed only on the
success path: a job whose engine call raises returns a `failed` entry with
both its temp input and temp reference files left on disk — see the
counterexample. -/
theorem temp_file_cleanup_paths :
    (∀ env : ApiEnv, env.preOk = true → env.saveInputOk = true →
      env.saveRefOk = true → (api_convert_voice env).2 = []) ∧
    (∀ (b : String) (i : ℕ) (f : String) (env : ConvJobEnv),
      env.loadOk = true → env.saveInputOk = true → env.saveRefOk = true →
      env.convert = .success →
      (process_single_conversion b i f env).2 = [] ∧
      (process_single_conversion b i f env).1.status = "completed") ∧
    (∀ (b : String) (i : ℕ) (f : String) (env : ConvJobEnv) (m : String),
      env.loadOk = true → env.saveInputOk = true → env.saveRefOk = true →
      env.convert = .engineException m →
      (process_single_conversion b i f env).2 =
        ["temp_input_" ++ toString i, "temp_ref_" ++ toString i] ∧
      (process_single_conversion b i f env).1.status = "failed") := by
  refine ⟨fun env h1 h2 h3 => ?_, fun b i f env h1 h2 h3 h4 => ?_,
    fun b i f env m h1 h2 h3 h4 => ?_⟩
  · obtain ⟨p, si, sr, c⟩ := env
    dsimp only at h1 h2 h3
    subst h1; subst h2; subst h3
    cases c <;> rfl
  · obtain ⟨l, si, sr, c⟩ := env
    dsimp only at h1 h2 h3 h4
    subst h1; subst h2; subst h3; subst h4
    exact ⟨by simp [process_single_conversion], by simp [process_single_conversion]⟩
  · obtain ⟨l, si, sr, c⟩ := env
    dsimp only at h1 h2 h3 h4
    subst h1; subst h2; subst h3; subst h4
    exact ⟨by simp [process_single_conversion], by simp [process_single_conversion]⟩

/-- Witness for C5 at concrete calls: the endpoint cleans up on an engine
failure, a successful batch job cleans up, a failing batch job does not. -/
theorem temp_file_cleanup_paths_witness :
    (api_convert_voice ⟨true, true, true, .engineException "boom"⟩).2 = [] ∧
    (process_single_conversion "b" 0 "a.wav" ⟨true, true, true, .success⟩).2 = [] ∧
    (process_single_conversion "b" 0 "a.wav"
      ⟨true, true, true, .engineException "boom"⟩).2 =
      ["temp_input_" ++ toString 0, "temp_ref_" ++ toString 0] :=
  ⟨temp_file_cleanup_paths.1 ⟨true, true, true, .engineException "boom"⟩ rfl rfl rfl,
   (temp_file_cleanup_paths.2.1 "b" 0 "a.wav" ⟨true, true, true, .success⟩
     rfl rfl rfl rfl).1,
   (temp_file_cleanup_paths.2.2 "b" 0 "a.wav" ⟨true, true, true, .engineException "boom"⟩
     "boom" rfl rfl rfl rfl).1⟩

/-- Counterexample to C5 as stated: a batch job whose engine call raises
returns a `failed` entry but leaves both of its transient temp files on
disk — cleanup is not guaranteed on every exit path of a batch job. -/
theorem batch_job_leaks_temp_files_on_engine_failure :
    (process_single_conversion "batch1" 0 "clip.wav"
        ⟨true, true, true, .engineException "OpenVoice conversion error"⟩).2 =
      ["temp_input_0", "temp_ref_0"] ∧
    (["temp_input_0", "temp_ref_0"] : List String) ≠ [] ∧
    (process_single_conversion "batch1" 0 "clip.wav"
        ⟨true, true, true, .engineException "OpenVoice conversion error"⟩).1.status =
      "failed" := by
  refine ⟨by decide, by decide, by decide⟩

/-- C6: `process_batch_conversion` returns one entry per job; entry `i` is a
function of job `i` alone (positional correspondence, independent of the
completion order that `asyncio.gather` hides); and a job whose engine call
raises yields a `failed` entry carrying the error while no other entry is
affected. -/
theorem batch_results_positional (b : String) (jobs : List (String × ConvJobEnv)) :
    (process_batch_conversion b jobs).length = jobs.length ∧
    (∀ i : ℕ, (process_batch_conversion b jobs).get? i =
      (jobs.get? i).map fun job => (process_single_conversion b i job.1 job.2).1) ∧
    (∀ (i : ℕ) (f : String) (env : ConvJobEnv) (m : String),
      jobs.get? i = some (f, env) →
      env.loadOk = true → env.saveInputOk = true → env.saveRefOk = true →
      env.convert = .engineException m →
      (process_batch_conversion b jobs).get? i =
        some ⟨i, f, "failed", some (convWrap m), none⟩) := by
  have hget : ∀ i : ℕ, (process_batch_conversion b jobs).get? i =
      (jobs.get? i).map fun job => (process_single_conversion b i job.1 job.2).1 := by
    intro i
    rw [process_batch_conversion, List.get?_map, List.get?_enum]
    cases jobs.get? i <;> simp
  refine ⟨?_, hget, fun i f env m hjob h1 h2 h3 h4 => ?_⟩
  · rw [process_batch_conversion, List.length_map, List.enum_length]
  · rw [hget i, hjob]
    obtain ⟨l, si, sr, c⟩ := env
    dsimp only at h1 h2 h3 h4
    subst h1; subst h2; subst h3; subst h4
    simp [process_single_conversion]

/-- Witness for C6 on a concrete two-job batch: two entries, in order; the
failing second job yields a `failed` entry carrying the engine error and
the first entry is the successful one. -/
theorem batch_results_positional_witness :
    (process_batch_conversion "batch"
        [("a.wav", ⟨true, true, true, .success⟩),
         ("b.wav", ⟨true, true, true, .engineException "boom"⟩)]).length = 2 ∧
    (process_batch_conversion "batch"
        [("a.wav", ⟨true, true, true, .success⟩),
         ("b.wav", ⟨true, true, true, .engineException "boom"⟩)]).get? 1 =
      some ⟨1, "b.wav", "failed", some (convWrap "boom"), none⟩ ∧
    (process_batch_conversion "batch"
        [("a.wav", ⟨true, true, true, .success⟩),
         ("b.wav", ⟨true, true, true, .engineException "boom"⟩)]).get? 0 =
      some ((process_single_conversion "batch" 0 "a.wav" ⟨true, true, true, .success⟩).1) :=
  ⟨(batch_results_positional "batch" _).1,
   (batch_results_positional "batch" _).2.2 1 "b.wav" ⟨true, true, true,
     .engineException "boom"⟩ "boom" rfl rfl rfl rfl rfl,
   by rw [(batch_results_positional "batch" _).2.1 0]; rfl⟩

end AccentPoint
